import Mathlib

/-!
Shallow embedding of `jaraco/desktop/wallpaper.py` (jaraco.desktop).

The module's effectful boundaries — the OS free-space query behind
`_get_free_bytes`, the two `urllib.request.urlopen` calls, BeautifulSoup's
`find`, and the output-file write — are abstracted into an `Env` record.
Every function of the module is then translated as a pure function of that
environment; Python exceptions are made explicit with `Except`, and the
driver additionally records which externally visible steps it performed.
-/

namespace Wallpaper

/-- Python exceptions this module can raise or let propagate. -/
inductive PyExn where
  | typeError (msg : String)
  | zeroDivisionError
  | osError (msg : String)
  | keyError (key : String)
  | calledProcessError (code : Nat)
  deriving Repr, DecidableEq

/-- Transport failures of `urllib.request.urlopen`: `HTTPError` (carrying
the status code `e.code`) or `URLError` (carrying `e.reason`). -/
inductive FetchErr where
  | httpError (code : Nat)
  | urlError (reason : String)
  deriving Repr, DecidableEq

/-- The ambient OS and network, as the module observes them in one run.
`stat` is the outcome of `_get_free_bytes(dir)`: an `OSError` or the pair
`(free_bytes, total_bytes)`.  `page` is the outcome of fetching `base_url`:
a transport error or the response's lines.  `soupFind` abstracts
BeautifulSoup: given the content string handed to the parser and a meta-tag
`name` attribute, it yields the tag's `content` attribute, or `none` when no
such tag is found (Python: `soup.find(...)` returns `None`).  `image` is the
outcome of fetching the image URL, `write` the outcome of opening and
writing the output file, and `darwinExit` the exit status of the macOS
`defaults` command. -/
structure Env where
  stat : Except String (Nat × Nat)
  page : Except FetchErr (List String)
  soupFind : String → String → Option String
  image : Except FetchErr Unit
  write : Except String Unit
  darwinExit : Nat

/-- Python's `round` on the exact value, half to even (banker's rounding),
as `int(round(x))` computes at line 76. -/
def pyRound (q : ℚ) : ℤ :=
  if q - ⌊q⌋ < 1 / 2 then ⌊q⌋
  else if 1 / 2 < q - ⌊q⌋ then ⌊q⌋ + 1
  else if ⌊q⌋ % 2 = 0 then ⌊q⌋ else ⌊q⌋ + 1

/-- `int(round(n / d))` computed exactly on the integer data (`d > 0` in
every use): the quotient `n / d` is `⌊n/d⌋`, and the fractional part
`(n % d) / d` is compared with `1/2` by cross-multiplying.  The theorem
`pyRoundDiv_eq_pyRound` proves this agrees with `pyRound` on `n / d`. -/
def pyRoundDiv (n d : ℤ) : ℤ :=
  if 2 * (n % d) < d then n / d
  else if d < 2 * (n % d) then n / d + 1
  else if (n / d) % 2 = 0 then n / d else n / d + 1

/-- Number of binary digits of `n` (`0` for `n = 0`).  The fuel argument
makes the recursion structural so that the kernel can evaluate it. -/
def bitsAux : ℕ → ℕ → ℕ
  | 0, _ => 0
  | fuel + 1, n => if n = 0 then 0 else bitsAux fuel (n / 2) + 1

/-- Number of binary digits of `n`: `2 ^ (bits n - 1) ≤ n < 2 ^ bits n`
for `n ≠ 0`. -/
def bits (n : ℕ) : ℕ := bitsAux n n

/-- Round-half-even of `(n / d) * 2 ^ (-e)` (`d ≠ 0`), computed exactly on
integers. -/
def rneAt (n d : ℕ) (e : ℤ) : ℕ :=
  if 0 ≤ e then (pyRoundDiv (n : ℤ) ((d : ℤ) * 2 ^ e.toNat)).toNat
  else (pyRoundDiv ((n : ℤ) * 2 ^ (-e).toNat) (d : ℤ)).toNat

/-- The IEEE-754 binary64 double nearest to `n / d` (round to nearest,
ties to even), as a significand–exponent pair `(m, e)` of value `m * 2^e`
with `2^52 ≤ m < 2^53` when `n, d ≠ 0`.  The exponent is located from the
binary lengths of `n` and `d` and corrected when the rounded significand
reaches `2^53`.  Exponent-range limits and subnormals are not modelled:
the percentage pipeline stays far inside the normal range, and a quotient
below it yields in both semantics a value that rounds to the integer 0. -/
def rnd53 (n d : ℕ) : ℕ × ℤ :=
  let e0 : ℤ := (bits n : ℤ) - (bits d : ℤ) - 53
  let m0 := rneAt n d e0
  if m0 < 2 ^ 53 then (m0, e0)
  else
    let m1 := rneAt n d (e0 + 1)
    if m1 < 2 ^ 53 then (m1, e0 + 1) else (2 ^ 52, e0 + 2)

/-- The exact rational value of the double `(m, e)`. -/
def fval (p : ℕ × ℤ) : ℚ :=
  (p.1 : ℚ) * 2 ^ p.2

/-- Python's `round` of the double `m * 2^e` to an integer, half to even,
computed exactly on integers. -/
def roundFval (m : ℕ) (e : ℤ) : ℤ :=
  if 0 ≤ e then (m : ℤ) * 2 ^ e.toNat
  else pyRoundDiv (m : ℤ) (2 ^ (-e).toNat)

/-- CPython's `int(round(free / total * 100))` on binary64 doubles
(line 75–76): `free / total` is one correctly rounded division, `* 100`
one correctly rounded multiplication (`100` is exact, so the product's
significand is `100 * m` rounded back to 53 bits), and `round` rounds the
resulting double's exact value half to even.  `int` of that is itself. -/
def pyFloatPct (free total : ℕ) : ℤ :=
  let p1 := rnd53 free total
  let p2 := rnd53 (100 * p1.1) 1
  roundFval p2.1 (p1.2 + p2.2)

/-- The value `free_space` returns: the Python `False` sentinel produced
when `_get_free_bytes` raises `OSError`, or an integer percentage. -/
inductive FSVal where
  | noReading
  | pct (n : ℤ)
  deriving Repr, DecidableEq

/-- Python treats `False` as the integer `0`; this is the integer the
driver's `not fs` and `fs <= free_space_minimum` tests see. -/
def FSVal.toInt : FSVal → ℤ
  | .noReading => 0
  | .pct n => n

/-- `free_space(dir)` (lines 67–76): ask `_get_free_bytes` for
`(free, total)`; an `OSError` is caught and turned into `False`; otherwise
compute `int(round(free / total * 100))`.  The division happens outside the
`try`, so `total == 0` raises an uncaught `ZeroDivisionError`.  The
percentage is CPython's double-precision evaluation `pyFloatPct`, which can
differ by one from the exact-rational rounding (see
`free_space_float_deviates`). -/
def free_space (stat : Except String (Nat × Nat)) : Except PyExn FSVal :=
  match stat with
  | .error _ => .ok .noReading
  | .ok (free, total) =>
      if total = 0 then .error .zeroDivisionError
      else .ok (.pct (pyFloatPct free total))

/-- Byte-list prefix test, used to define substring containment. -/
def hasPrefixL : List Char → List Char → Bool
  | [], _ => true
  | _ :: _, [] => false
  | a :: as, b :: bs => a == b && hasPrefixL as bs

/-- `needle in hay` on byte strings, as Python's `in` operator. -/
def containsSubL (needle : List Char) : List Char → Bool
  | [] => hasPrefixL needle []
  | c :: rest => hasPrefixL needle (c :: rest) || containsSubL needle rest

/-- `b'document.write' in line` (line 98). -/
def containsMarker (l : String) : Bool :=
  containsSubL "document.write".data l.data

/-- Line 98: `b''.join(line for line in res if b'document.write' not in line)`
— iterate the response's lines, keeping a line exactly when it lacks the
marker, and concatenate what is kept. -/
def sanitizeLines : List String → String
  | [] => ""
  | l :: ls => if containsMarker l then sanitizeLines ls else l ++ sanitizeLines ls

/-- Concatenation of a list of strings in order (`b''.join`). -/
def concatAll (ls : List String) : String :=
  ls.foldr (fun a b => a ++ b) ""

/-- The Python value `get_wallpaper_details` returns when it does not
raise: the `False` sentinel of line 95, or `URLDetail(url, title)`. -/
inductive GWDRet where
  | notFound
  | detail (url title : String)
  deriving Repr, DecidableEq

/-- Lines 106–108: look up the two meta tags in the parsed content and
subscript them with `['content']`.  When `soup.find` returns `None`,
`None['content']` raises `TypeError`. -/
def parseDetails (find : String → String → Option String) (content : String) :
    Except PyExn GWDRet :=
  match find content "twitter:image:src" with
  | none => .error (.typeError "NoneType object is not subscriptable")
  | some url =>
      match find content "twitter:title" with
      | none => .error (.typeError "NoneType object is not subscriptable")
      | some title => .ok (.detail url title)

/-- `get_wallpaper_details(base_url)` (lines 82–108): a transport error from
`urlopen` is caught and returns `False`; otherwise the marker-bearing lines
are filtered out and the remaining content is parsed. -/
def get_wallpaper_details (env : Env) : Except PyExn GWDRet :=
  match env.page with
  | .error _ => .ok .notFound
  | .ok lines => parseDetails env.soupFind (sanitizeLines lines)

/-- `s.split(sep)` on the character list of a string: cut at every
occurrence of `sep`, keeping empty segments, as Python's `str.split` with
an explicit separator does. -/
def splitOnChar (sep : Char) : List Char → List (List Char)
  | [] => [[]]
  | c :: rest =>
      match splitOnChar sep rest with
      | [] => [[]]
      | seg :: segs => if c = sep then [] :: seg :: segs else (c :: seg) :: segs

/-- `url.split(".")[-1]` (line 115): the last dot-segment of the URL. -/
def lastDotSegment (s : String) : String :=
  ⟨(splitOnChar '.' s.data).getLastD []⟩

/-- Whether `p` is a prefix of `s`. -/
def strStarts (p s : String) : Bool :=
  hasPrefixL p.data s.data

/-- Whether `p` is a suffix of `s`. -/
def strEnds (p s : String) : Bool :=
  hasPrefixL p.data.reverse s.data.reverse

/-- `os.path.join(a, b)` for POSIX paths, the case the module exercises. -/
def osPathJoin (a b : String) : String :=
  if strStarts "/" b then b
  else if a = "" || strEnds "/" a then a ++ b
  else a ++ "/" ++ b

/-- Lines 115–116: `filename + "." + url.split(".")[-1]`, joined onto the
picture directory.  No character of the title is altered. -/
def outPath (pd fname url : String) : String :=
  osPathJoin pd (fname ++ "." ++ lastDotSegment url)

/-- The messages `download_wallpaper` prints on a caught transport error
(lines 123 and 125). -/
def fetchErrMsg : FetchErr → String → String
  | .httpError c, url => "HTTP Error: " ++ toString c ++ " " ++ url
  | .urlError r, url => "URL Error: " ++ r ++ " " ++ url

deriving instance DecidableEq for Except

/-- What `download_wallpaper` returns or raises, together with what it
printed. -/
structure DownloadResult where
  ret : Except PyExn String
  msgs : List String
  deriving Repr, DecidableEq

/-- `download_wallpaper(url, picture_dir, filename)` (lines 111–127): build
the output path, fetch the URL, write the bytes.  `HTTPError` and
`URLError` are caught, reported and swallowed, and the path is returned
anyway; an `OSError` from `open`/`write` is not caught and propagates. -/
def download_wallpaper (env : Env) (url pd fname : String) : DownloadResult :=
  let o := outPath pd fname url
  match env.image with
  | .error e => ⟨.ok o, [fetchErrMsg e url]⟩
  | .ok _ =>
      match env.write with
      | .error m => ⟨.error (.osError m), ["Downloading " ++ url]⟩
      | .ok _ => ⟨.ok o, ["Downloading " ++ url]⟩

/-- The platform-specific wallpaper setters defined in the module. -/
inductive Setter where
  | linux
  | win32
  | darwin
  deriving Repr, DecidableEq

/-- Line 169: `set_wallpaper = globals()['_set_wallpaper_' + sys.platform]`,
evaluated when the module is imported.  A platform with no matching
function makes the dictionary lookup raise `KeyError`. -/
def set_wallpaper_lookup (platform : String) : Except PyExn Setter :=
  if platform = "linux" then .ok .linux
  else if platform = "win32" then .ok .win32
  else if platform = "darwin" then .ok .darwin
  else .error (.keyError ("_set_wallpaper_" ++ platform))

/-- Applying the resolved setter (lines 130–166): the Linux variant is a
fire-and-forget `Popen`, the Windows variant a `ctypes` call, and the macOS
variant a `subprocess.check_call` that raises on a nonzero exit status. -/
def applySetter (setter : Setter) (env : Env) (_filename : String) :
    Except PyExn Unit :=
  match setter with
  | .linux => .ok ()
  | .win32 => .ok ()
  | .darwin =>
      if env.darwinExit = 0 then .ok ()
      else .error (.calledProcessError env.darwinExit)

/-- Module constant, line 29. -/
def free_space_minimum : ℤ := 25

/-- Module constant, line 30. -/
def base_url : String :=
  "http://photography.nationalgeographic.com/photography/photo-of-the-day"

/-- Module constant, line 26: `os.path.expanduser("~/Pictures/NatGeoPics")`. -/
def picture_dir (home : String) : String :=
  home ++ "/Pictures/NatGeoPics"

/-- The externally visible steps a run performs, in order. -/
inductive Event where
  | diskCheck
  | pageFetch
  | imageFetch
  | setWall
  deriving Repr, DecidableEq

/-- How the process ends: falling off the end, `SystemExit(code)`, or an
uncaught exception. -/
inductive Termination where
  | normal
  | systemExit (code : Nat)
  | uncaught (e : PyExn)
  deriving Repr, DecidableEq

/-- A run's termination together with the trace of steps it performed. -/
structure RunResult where
  term : Termination
  events : List Event
  deriving Repr, DecidableEq

/-- `set_random_wallpaper()` (lines 172–187).  `fs = free_space(picture_dir)`;
`if not fs:` exits 1 (true for the `False` sentinel and for the integer 0);
`if fs <= free_space_minimum:` exits 2; then
`url, title = get_wallpaper_details(base_url)` — unpacking the `False`
sentinel raises `TypeError` — then `if not url:` exits 3, then download and
set. -/
def set_random_wallpaper (env : Env) (setter : Setter) (pd : String) :
    RunResult :=
  match free_space env.stat with
  | .error e => ⟨.uncaught e, [.diskCheck]⟩
  | .ok fs =>
      if fs.toInt = 0 then ⟨.systemExit 1, [.diskCheck]⟩
      else if fs.toInt ≤ free_space_minimum then ⟨.systemExit 2, [.diskCheck]⟩
      else
        match get_wallpaper_details env with
        | .error e => ⟨.uncaught e, [.diskCheck, .pageFetch]⟩
        | .ok .notFound =>
            ⟨.uncaught (.typeError "cannot unpack non-iterable bool"),
             [.diskCheck, .pageFetch]⟩
        | .ok (.detail url title) =>
            if url = "" then ⟨.systemExit 3, [.diskCheck, .pageFetch]⟩
            else
              match (download_wallpaper env url pd title).ret with
              | .error e => ⟨.uncaught e, [.diskCheck, .pageFetch, .imageFetch]⟩
              | .ok path =>
                  match applySetter setter env path with
                  | .error e =>
                      ⟨.uncaught e,
                       [.diskCheck, .pageFetch, .imageFetch, .setWall]⟩
                  | .ok _ =>
                      ⟨.normal,
                       [.diskCheck, .pageFetch, .imageFetch, .setWall]⟩

/-- Running the module as a program: importing it first evaluates the
`set_wallpaper` lookup of line 169, which raises before any driver step on
an unsupported platform; then `set_random_wallpaper()` runs. -/
def run_module (platform : String) (env : Env) (home : String) : RunResult :=
  match set_wallpaper_lookup platform with
  | .error e => ⟨.uncaught e, []⟩
  | .ok setter => set_random_wallpaper env setter (picture_dir home)

/-- A benign environment: plenty of free space, every external call
succeeds, but the page has no meta tags. -/
def envBase : Env where
  stat := .ok (60, 100)
  page := .ok ["<html><head></head></html>"]
  soupFind := fun _ _ => none
  image := .ok ()
  write := .ok ()
  darwinExit := 0

/-- The metadata fetch fails in transport (`urlopen` raises `URLError`). -/
def envTransportFail : Env :=
  { envBase with page := .error (.urlError "timed out") }

/-- The directory exists and its filesystem reports zero free bytes. -/
def envZeroFree : Env :=
  { envBase with stat := .ok (0, 100) }

/-- The directory exists with 10% free space. -/
def envLowSpace : Env :=
  { envBase with stat := .ok (10, 100) }

/-- The image fetch fails with an HTTP 404. -/
def envHttpErr : Env :=
  { envBase with image := .error (.httpError 404) }

/-- The picture directory is missing: the free-space query raises. -/
def envNoDir : Env :=
  { envBase with stat := .error "ENOENT" }

/-- Opening or writing the output file raises an `OSError`. -/
def envWriteFail : Env :=
  { envBase with write := .error "No such file or directory" }

/-- A page whose body embeds a `document.write` line between meta tags. -/
def envMarked : Env :=
  { envBase with
    page := .ok ["<meta a>", "x document.write('<script>') y", "<meta b>"] }

end Wallpaper

namespace Wallpaper

theorem pyRound_nonneg {q : ℚ} (h : 0 ≤ q) : 0 ≤ pyRound q := by
  have hf : 0 ≤ ⌊q⌋ := Int.floor_nonneg.mpr h
  unfold pyRound
  split_ifs <;> omega

theorem pyRound_le {q : ℚ} {B : ℤ} (h : q ≤ (B : ℚ)) : pyRound q ≤ B := by
  have hfB : ⌊q⌋ ≤ B := by
    have h2 := Int.floor_mono h
    simpa using h2
  have hstep : ¬(q - ⌊q⌋ < 1 / 2) → ⌊q⌋ + 1 ≤ B := by
    intro hge
    push_neg at hge
    have hlt : ((⌊q⌋ : ℤ) : ℚ) < (B : ℚ) := by
      have hq : (⌊q⌋ : ℚ) + 1 / 2 ≤ q := by linarith
      linarith
    have : ⌊q⌋ < B := by exact_mod_cast hlt
    omega
  unfold pyRound
  split_ifs with h1 h2 h3
  · exact hfB
  · exact hstep h1
  · exact hfB
  · exact hstep h1

theorem pyRoundDiv_eq_pyRound (n : ℤ) (d : ℕ) (hd : d ≠ 0) :
    pyRoundDiv n (d : ℤ) = pyRound ((n : ℚ) / (d : ℚ)) := by
  have hdz : (d : ℤ) ≠ 0 := by exact_mod_cast hd
  have hd0 : (0 : ℚ) < (d : ℚ) := by
    have := Nat.pos_of_ne_zero hd
    exact_mod_cast this
  have hfl : ⌊(n : ℚ) / (d : ℚ)⌋ = n / (d : ℤ) := Rat.floor_intCast_div_natCast n d
  have hmod : (d : ℤ) * (n / (d : ℤ)) + n % (d : ℤ) = n := Int.ediv_add_emod n d
  have key : (n : ℚ) / (d : ℚ) - ((n / (d : ℤ) : ℤ) : ℚ)
      = ((n % (d : ℤ) : ℤ) : ℚ) / (d : ℚ) := by
    have hcast : ((d : ℤ) : ℚ) * ((n / (d : ℤ) : ℤ) : ℚ) + ((n % (d : ℤ) : ℤ) : ℚ)
        = (n : ℚ) := by exact_mod_cast hmod
    field_simp
    push_cast at hcast ⊢
    linarith
  have h1 : ((n : ℚ) / (d : ℚ) - ((n / (d : ℤ) : ℤ) : ℚ) < 1 / 2)
      ↔ 2 * (n % (d : ℤ)) < (d : ℤ) := by
    rw [key, div_lt_iff₀ hd0]
    constructor
    · intro hlt
      have h2 : ((2 * (n % (d : ℤ)) : ℤ) : ℚ) < ((d : ℤ) : ℚ) := by
        push_cast
        linarith
      exact_mod_cast h2
    · intro hlt
      have h2 : ((2 * (n % (d : ℤ)) : ℤ) : ℚ) < ((d : ℤ) : ℚ) := by exact_mod_cast hlt
      push_cast at h2
      linarith
  have h2 : (1 / 2 < (n : ℚ) / (d : ℚ) - ((n / (d : ℤ) : ℤ) : ℚ))
      ↔ (d : ℤ) < 2 * (n % (d : ℤ)) := by
    rw [key, lt_div_iff₀ hd0]
    constructor
    · intro hlt
      have h3 : ((d : ℤ) : ℚ) < ((2 * (n % (d : ℤ)) : ℤ) : ℚ) := by
        push_cast
        linarith
      exact_mod_cast h3
    · intro hlt
      have h3 : ((d : ℤ) : ℚ) < ((2 * (n % (d : ℤ)) : ℤ) : ℚ) := by exact_mod_cast hlt
      push_cast at h3
      linarith
  unfold pyRound pyRoundDiv
  rw [hfl]
  simp only [h1, h2]

theorem bitsAux_spec : ∀ fuel n : ℕ, n ≤ fuel →
    n < 2 ^ bitsAux fuel n ∧ (n ≠ 0 → 2 ^ (bitsAux fuel n - 1) ≤ n) := by
  intro fuel
  induction fuel with
  | zero =>
      intro n hn
      have hn0 : n = 0 := Nat.le_zero.mp hn
      subst hn0
      exact ⟨by norm_num [bitsAux], fun h => absurd rfl h⟩
  | succ fuel ih =>
      intro n hn
      by_cases h0 : n = 0
      · subst h0
        exact ⟨by norm_num [bitsAux], fun h => absurd rfl h⟩
      · have hrec : n / 2 ≤ fuel := by omega
        obtain ⟨ih1, ih2⟩ := ih (n / 2) hrec
        have hb : bitsAux (fuel + 1) n = bitsAux fuel (n / 2) + 1 := by
          simp [bitsAux, h0]
        refine ⟨?_, fun _ => ?_⟩
        · rw [hb, pow_succ]
          omega
        · rw [hb]
          simp only [Nat.add_sub_cancel]
          by_cases h2 : n / 2 = 0
          · have hb0 : bitsAux fuel (n / 2) = 0 := by
              rw [h2]
              cases fuel <;> rfl
            rw [hb0]
            omega
          · have hlow := ih2 h2
            have hb1 : bitsAux fuel (n / 2) ≠ 0 := by
              intro hc
              rw [hc] at ih1
              omega
            obtain ⟨k, hk⟩ := Nat.exists_eq_succ_of_ne_zero hb1
            rw [hk] at hlow ⊢
            have hlow2 : 2 ^ k ≤ n / 2 := by
              simpa using hlow
            rw [pow_succ]
            omega

theorem bits_lt (n : ℕ) : n < 2 ^ bits n :=
  (bitsAux_spec n n le_rfl).1

theorem bits_le {n : ℕ} (hn : n ≠ 0) : 2 ^ (bits n - 1) ≤ n :=
  (bitsAux_spec n n le_rfl).2 hn

theorem bits_pos {n : ℕ} (hn : n ≠ 0) : 1 ≤ bits n := by
  have h1 := bits_lt n
  by_contra hc
  push_neg at hc
  have hb0 : bits n = 0 := by omega
  rw [hb0, pow_zero] at h1
  omega

theorem pyRound_le_half (q : ℚ) : (pyRound q : ℚ) ≤ q + 1 / 2 := by
  have hf := Int.floor_le q
  have hf2 := Int.lt_floor_add_one q
  unfold pyRound
  split_ifs with h1 h2 h3
  · linarith
  · push_cast
    linarith
  · linarith
  · push_cast
    push_neg at h1 h2
    linarith

theorem pyRound_ge_half (q : ℚ) : q - 1 / 2 ≤ (pyRound q : ℚ) := by
  have hf := Int.floor_le q
  have hf2 := Int.lt_floor_add_one q
  unfold pyRound
  split_ifs with h1 h2 h3
  · linarith
  · push_cast
    linarith
  · push_neg at h1 h2
    linarith
  · push_cast
    linarith

theorem pyRound_intCast (k : ℤ) : pyRound ((k : ℤ) : ℚ) = k := by
  unfold pyRound
  rw [Int.floor_intCast]
  norm_num

theorem pyRoundDiv_zero {b : ℤ} (hb : 0 < b) : pyRoundDiv 0 b = 0 := by
  unfold pyRoundDiv
  simp [hb]

theorem rneAt_eq (n d : ℕ) (hd : d ≠ 0) (e : ℤ) :
    ((rneAt n d e : ℕ) : ℤ) = pyRound ((n : ℚ) / (d : ℚ) * 2 ^ (-e)) := by
  unfold rneAt
  split_ifs with he
  · obtain ⟨k, rfl⟩ : ∃ k : ℕ, e = (k : ℤ) := ⟨e.toNat, (Int.toNat_of_nonneg he).symm⟩
    simp only [Int.toNat_natCast]
    have hb : (d * 2 ^ k : ℕ) ≠ 0 := by positivity
    have h := pyRoundDiv_eq_pyRound (n : ℤ) (d * 2 ^ k) hb
    push_cast at h
    have harg : (n : ℚ) / ((d : ℚ) * 2 ^ k) = (n : ℚ) / (d : ℚ) * 2 ^ (-(k : ℤ)) := by
      rw [zpow_neg, zpow_natCast, div_mul_eq_div_div, div_eq_mul_inv ((n : ℚ) / d)]
    rw [harg] at h
    have hnn : 0 ≤ pyRoundDiv (n : ℤ) ((d : ℤ) * 2 ^ k) := by
      rw [h]
      apply pyRound_nonneg
      positivity
    rw [Int.toNat_of_nonneg hnn, h]
  · obtain ⟨j, rfl⟩ : ∃ j : ℕ, e = -(j : ℤ) := by
      refine ⟨(-e).toNat, ?_⟩
      have h2 := Int.toNat_of_nonneg (by omega : (0 : ℤ) ≤ -e)
      omega
    simp only [neg_neg, Int.toNat_natCast]
    have h := pyRoundDiv_eq_pyRound ((n : ℤ) * 2 ^ j) d hd
    push_cast at h
    have harg : (n : ℚ) * 2 ^ j / (d : ℚ) = (n : ℚ) / (d : ℚ) * 2 ^ ((j : ℕ) : ℤ) := by
      rw [zpow_natCast]
      ring
    rw [harg] at h
    have hnn : 0 ≤ pyRoundDiv ((n : ℤ) * 2 ^ j) (d : ℤ) := by
      rw [h]
      apply pyRound_nonneg
      have h2 : (0 : ℚ) < 2 ^ ((j : ℕ) : ℤ) := by positivity
      positivity
    rw [Int.toNat_of_nonneg hnn, h]

theorem rneAt_half0 (n d : ℕ) (hd : d ≠ 0) (e : ℤ) :
    (n : ℚ) / (d : ℚ) * 2 ^ (-e) - 1 / 2 ≤ ((rneAt n d e : ℕ) : ℚ) ∧
    ((rneAt n d e : ℕ) : ℚ) ≤ (n : ℚ) / (d : ℚ) * 2 ^ (-e) + 1 / 2 := by
  have h : ((rneAt n d e : ℕ) : ℚ)
      = ((pyRound ((n : ℚ) / (d : ℚ) * 2 ^ (-e)) : ℤ) : ℚ) := by
    exact_mod_cast rneAt_eq n d hd e
  rw [h]
  exact ⟨pyRound_ge_half _, pyRound_le_half _⟩

theorem roundFval_eq (m : ℕ) (e : ℤ) :
    roundFval m e = pyRound ((m : ℚ) * 2 ^ e) := by
  unfold roundFval
  split_ifs with he
  · obtain ⟨k, rfl⟩ : ∃ k : ℕ, e = (k : ℤ) := ⟨e.toNat, (Int.toNat_of_nonneg he).symm⟩
    simp only [Int.toNat_natCast]
    have harg : (m : ℚ) * 2 ^ ((k : ℕ) : ℤ) = (((m : ℤ) * 2 ^ k : ℤ) : ℚ) := by
      rw [zpow_natCast]
      push_cast
      ring
    rw [harg, pyRound_intCast]
  · obtain ⟨j, rfl⟩ : ∃ j : ℕ, e = -(j : ℤ) := by
      refine ⟨(-e).toNat, ?_⟩
      have h2 := Int.toNat_of_nonneg (by omega : (0 : ℤ) ≤ -e)
      omega
    simp only [neg_neg, Int.toNat_natCast]
    have hb : (2 ^ j : ℕ) ≠ 0 := by positivity
    have h := pyRoundDiv_eq_pyRound (m : ℤ) (2 ^ j) hb
    push_cast at h
    rw [h]
    congr 1
    rw [zpow_neg, zpow_natCast, div_eq_mul_inv]

theorem rneAt_zero (d : ℕ) (hd : d ≠ 0) (e : ℤ) : rneAt 0 d e = 0 := by
  have hd0 : (0 : ℤ) < (d : ℤ) := by exact_mod_cast Nat.pos_of_ne_zero hd
  unfold rneAt
  split_ifs with he
  · have hb : (0 : ℤ) < (d : ℤ) * 2 ^ e.toNat := by positivity
    simp [pyRoundDiv_zero hb]
  · simp [pyRoundDiv_zero hd0]

theorem roundFval_zero (e : ℤ) : roundFval 0 e = 0 := by
  unfold roundFval
  split_ifs with he
  · simp
  · have hb : (0 : ℤ) < 2 ^ (-e).toNat := by positivity
    simp [pyRoundDiv_zero hb]

theorem rnd53_fst_zero (d : ℕ) (hd : d ≠ 0) : (rnd53 0 d).1 = 0 := by
  simp [rnd53, rneAt_zero d hd]

theorem pyFloatPct_zero (total : ℕ) (ht : total ≠ 0) : pyFloatPct 0 total = 0 := by
  simp only [pyFloatPct]
  rw [rnd53_fst_zero total ht, Nat.mul_zero, rnd53_fst_zero 1 one_ne_zero,
    roundFval_zero]

theorem quotient_range (n d : ℕ) (hn : n ≠ 0) (hd : d ≠ 0) :
    (2 : ℚ) ^ ((bits n : ℤ) - (bits d : ℤ) - 1) < (n : ℚ) / d ∧
    (n : ℚ) / d < (2 : ℚ) ^ ((bits n : ℤ) - (bits d : ℤ) + 1) := by
  have h2 : (2 : ℚ) ≠ 0 := by norm_num
  have hd0 : (0 : ℚ) < (d : ℚ) := by
    exact_mod_cast Nat.pos_of_ne_zero hd
  have hbn := bits_pos hn
  have hbd := bits_pos hd
  have hn_lt : (n : ℚ) < (2 : ℚ) ^ ((bits n : ℤ)) := by
    rw [show ((bits n : ℤ)) = ((bits n : ℕ) : ℤ) from rfl, zpow_natCast]
    exact_mod_cast bits_lt n
  have hd_lt : (d : ℚ) < (2 : ℚ) ^ ((bits d : ℤ)) := by
    rw [show ((bits d : ℤ)) = ((bits d : ℕ) : ℤ) from rfl, zpow_natCast]
    exact_mod_cast bits_lt d
  have hn_ge : (2 : ℚ) ^ ((bits n : ℤ) - 1) ≤ (n : ℚ) := by
    rw [show (bits n : ℤ) - 1 = ((bits n - 1 : ℕ) : ℤ) from by omega, zpow_natCast]
    exact_mod_cast bits_le hn
  have hd_ge : (2 : ℚ) ^ ((bits d : ℤ) - 1) ≤ (d : ℚ) := by
    rw [show (bits d : ℤ) - 1 = ((bits d - 1 : ℕ) : ℤ) from by omega, zpow_natCast]
    exact_mod_cast bits_le hd
  constructor
  · rw [lt_div_iff₀ hd0]
    calc (2 : ℚ) ^ ((bits n : ℤ) - (bits d : ℤ) - 1) * d
        < 2 ^ ((bits n : ℤ) - (bits d : ℤ) - 1) * 2 ^ ((bits d : ℤ)) := by
          have hp : (0 : ℚ) < 2 ^ ((bits n : ℤ) - (bits d : ℤ) - 1) := by positivity
          exact mul_lt_mul_of_pos_left hd_lt hp
      _ = 2 ^ ((bits n : ℤ) - 1) := by
          rw [← zpow_add₀ h2]
          congr 1
          ring
      _ ≤ n := hn_ge
  · rw [div_lt_iff₀ hd0]
    calc (n : ℚ) < 2 ^ ((bits n : ℤ)) := hn_lt
      _ = 2 ^ ((bits n : ℤ) - (bits d : ℤ) + 1) * 2 ^ ((bits d : ℤ) - 1) := by
          rw [← zpow_add₀ h2]
          congr 1
          ring
      _ ≤ 2 ^ ((bits n : ℤ) - (bits d : ℤ) + 1) * d := by
          have hp : (0 : ℚ) ≤ 2 ^ ((bits n : ℤ) - (bits d : ℤ) + 1) := by positivity
          exact mul_le_mul_of_nonneg_left hd_ge hp

theorem rnd53_spec (n d : ℕ) (hn : n ≠ 0) (hd : d ≠ 0) :
    2 ^ 52 ≤ (rnd53 n d).1 ∧ (rnd53 n d).1 < 2 ^ 53 ∧
    (n : ℚ) / d - 2 ^ ((rnd53 n d).2 - 1) ≤ fval (rnd53 n d) ∧
    fval (rnd53 n d) ≤ (n : ℚ) / d + 2 ^ ((rnd53 n d).2 - 1) := by
  have h2 : (2 : ℚ) ≠ 0 := by norm_num
  have hd0 : (0 : ℚ) < (d : ℚ) := by exact_mod_cast Nat.pos_of_ne_zero hd
  obtain ⟨hqlow, hqhigh⟩ := quotient_range n d hn hd
  simp only [rnd53, fval]
  set e0 : ℤ := (bits n : ℤ) - (bits d : ℤ) - 53 with he0
  have hqlow2 : (2 : ℚ) ^ (e0 + 52) < (n : ℚ) / d := by
    rw [show e0 + 52 = (bits n : ℤ) - (bits d : ℤ) - 1 from by omega]
    exact hqlow
  have hqhigh2 : (n : ℚ) / d < (2 : ℚ) ^ (e0 + 54) := by
    rw [show e0 + 54 = (bits n : ℤ) - (bits d : ℤ) + 1 from by omega]
    exact hqhigh
  obtain ⟨hr0a, hr0b⟩ := rneAt_half0 n d hd e0
  obtain ⟨hr1a, hr1b⟩ := rneAt_half0 n d hd (e0 + 1)
  have hE0 : (0 : ℚ) < 2 ^ e0 := by positivity
  have hE1 : (0 : ℚ) < 2 ^ (e0 + 1) := by positivity
  have hEm0 : (0 : ℚ) < 2 ^ (-e0) := by positivity
  have hQ0 : (n : ℚ) / d * 2 ^ (-e0) * 2 ^ e0 = (n : ℚ) / d := by
    rw [mul_assoc, ← zpow_add₀ h2]
    simp
  have hQ1 : (n : ℚ) / d * 2 ^ (-(e0 + 1)) * 2 ^ (e0 + 1) = (n : ℚ) / d := by
    rw [mul_assoc, ← zpow_add₀ h2,
      show -(e0 + 1) + (e0 + 1) = 0 from by ring, zpow_zero, mul_one]
  have hE0h : (2 : ℚ) ^ (e0 - 1) * 2 = 2 ^ e0 := by
    rw [← zpow_add_one₀ h2]
    congr 1
    ring
  have hE1h : (2 : ℚ) ^ (e0 + 1 - 1) * 2 = 2 ^ (e0 + 1) := by
    rw [← zpow_add_one₀ h2]
    congr 1
    ring
  have hX1 : (n : ℚ) / d * 2 ^ (-(e0 + 1)) * 2 = (n : ℚ) / d * 2 ^ (-e0) := by
    rw [mul_assoc]
    congr 1
    rw [← zpow_add_one₀ h2]
    congr 1
    ring
  have hX0low : (2 : ℚ) ^ (52 : ℕ) < (n : ℚ) / d * 2 ^ (-e0) := by
    have hs := mul_lt_mul_of_pos_right hqlow2 hEm0
    calc (2 : ℚ) ^ (52 : ℕ) = 2 ^ (e0 + 52) * 2 ^ (-e0) := by
          rw [← zpow_add₀ h2]
          rw [show e0 + 52 + -e0 = ((52 : ℕ) : ℤ) from by omega, zpow_natCast]
      _ < (n : ℚ) / d * 2 ^ (-e0) := hs
  have hX0high : (n : ℚ) / d * 2 ^ (-e0) < (2 : ℚ) ^ (54 : ℕ) := by
    have hs := mul_lt_mul_of_pos_right hqhigh2 hEm0
    calc (n : ℚ) / d * 2 ^ (-e0) < 2 ^ (e0 + 54) * 2 ^ (-e0) := hs
      _ = (2 : ℚ) ^ (54 : ℕ) := by
          rw [← zpow_add₀ h2]
          rw [show e0 + 54 + -e0 = ((54 : ℕ) : ℤ) from by omega, zpow_natCast]
  have hp53 : (2 : ℚ) ^ (53 : ℕ) = 2 * 2 ^ (52 : ℕ) := by norm_num
  have hp54 : (2 : ℚ) ^ (54 : ℕ) = 2 * 2 ^ (53 : ℕ) := by norm_num
  split_ifs with hc1 hc2
  · -- first rounding already normalized
    refine ⟨?_, hc1, ?_, ?_⟩
    · by_contra hcon
      push_neg at hcon
      have hcon2 : rneAt n d e0 + 1 ≤ 2 ^ 52 := by omega
      have hcon3 : ((rneAt n d e0 : ℕ) : ℚ) + 1 ≤ 2 ^ (52 : ℕ) := by
        exact_mod_cast hcon2
      linarith
    · have k1 := mul_le_mul_of_nonneg_right hr0a hE0.le
      rw [sub_mul, hQ0] at k1
      linarith [hE0h]
    · have k1 := mul_le_mul_of_nonneg_right hr0b hE0.le
      rw [add_mul, hQ0] at k1
      linarith [hE0h]
  · -- renormalized once
    push_neg at hc1
    have hm0 : (2 : ℚ) ^ (53 : ℕ) ≤ ((rneAt n d e0 : ℕ) : ℚ) := by
      exact_mod_cast hc1
    have hX0ge : (2 : ℚ) ^ (53 : ℕ) - 1 / 2 ≤ (n : ℚ) / d * 2 ^ (-e0) := by
      linarith
    refine ⟨?_, hc2, ?_, ?_⟩
    · by_contra hcon
      push_neg at hcon
      have hcon2 : rneAt n d (e0 + 1) + 1 ≤ 2 ^ 52 := by omega
      have hcon3 : ((rneAt n d (e0 + 1) : ℕ) : ℚ) + 1 ≤ 2 ^ (52 : ℕ) := by
        exact_mod_cast hcon2
      linarith [hr1a, hX1, hp53]
    · have k1 := mul_le_mul_of_nonneg_right hr1a hE1.le
      rw [sub_mul, hQ1] at k1
      linarith [hE1h]
    · have k1 := mul_le_mul_of_nonneg_right hr1b hE1.le
      rw [add_mul, hQ1] at k1
      linarith [hE1h]
  · -- the second rounding reached 2^53 exactly
    push_neg at hc1 hc2
    have hm1lo : (2 : ℚ) ^ (53 : ℕ) ≤ ((rneAt n d (e0 + 1) : ℕ) : ℚ) := by
      exact_mod_cast hc2
    have hX1hi : (n : ℚ) / d * 2 ^ (-(e0 + 1)) < 2 ^ (53 : ℕ) := by
      linarith [hX0high, hX1, hp54]
    have hm1hi : rneAt n d (e0 + 1) ≤ 2 ^ 53 := by
      by_contra hcon
      push_neg at hcon
      have hcon2 : (2 : ℚ) ^ (53 : ℕ) + 1 ≤ ((rneAt n d (e0 + 1) : ℕ) : ℚ) := by
        exact_mod_cast hcon
      linarith
    have hm1 : rneAt n d (e0 + 1) = 2 ^ 53 := by omega
    have hm1q : ((rneAt n d (e0 + 1) : ℕ) : ℚ) = 2 ^ (53 : ℕ) := by
      exact_mod_cast hm1
    have hval : ((2 ^ 52 : ℕ) : ℚ) * 2 ^ (e0 + 2)
        = ((rneAt n d (e0 + 1) : ℕ) : ℚ) * 2 ^ (e0 + 1) := by
      rw [hm1q, show e0 + 2 = (e0 + 1) + 1 from by ring, zpow_add_one₀ h2]
      push_cast
      rw [hp53]
      ring
    have hE2h : (2 : ℚ) ^ (e0 + 2 - 1) = 2 ^ (e0 + 1) := by
      congr 1
      ring
    refine ⟨le_refl _, by norm_num, ?_, ?_⟩
    · have k1 := mul_le_mul_of_nonneg_right hr1a hE1.le
      rw [sub_mul, hQ1] at k1
      rw [hval, hE2h]
      linarith [hE1h, hE1]
    · have k1 := mul_le_mul_of_nonneg_right hr1b hE1.le
      rw [add_mul, hQ1] at k1
      rw [hval, hE2h]
      linarith [hE1h, hE1]

theorem rnd53_close (n d : ℕ) (hn : n ≠ 0) (hd : d ≠ 0) :
    (2 ^ 52 - 1 : ℚ) * ((n : ℚ) / d) ≤ 2 ^ 52 * fval (rnd53 n d) ∧
    2 ^ 52 * fval (rnd53 n d) ≤ (2 ^ 52 + 1 : ℚ) * ((n : ℚ) / d) := by
  obtain ⟨hm_lo, _, herr_lo, herr_hi⟩ := rnd53_spec n d hn hd
  have h2 : (2 : ℚ) ≠ 0 := by norm_num
  have ht : (0 : ℚ) < 2 ^ ((rnd53 n d).2 - 1) := by positivity
  have hEpos : (0 : ℚ) < 2 ^ (rnd53 n d).2 := by positivity
  have hE : (2 : ℚ) ^ ((rnd53 n d).2 - 1) * 2 = 2 ^ (rnd53 n d).2 := by
    rw [← zpow_add_one₀ h2]
    congr 1
    ring
  have hmq : (2 ^ 52 : ℚ) ≤ ((rnd53 n d).1 : ℚ) := by exact_mod_cast hm_lo
  have hfval_ge : (2 ^ 52 : ℚ) * 2 * 2 ^ ((rnd53 n d).2 - 1) ≤ fval (rnd53 n d) := by
    have hs := mul_le_mul_of_nonneg_right hmq hEpos.le
    have hfv : fval (rnd53 n d) = ((rnd53 n d).1 : ℚ) * 2 ^ (rnd53 n d).2 := rfl
    calc (2 ^ 52 : ℚ) * 2 * 2 ^ ((rnd53 n d).2 - 1)
        = (2 ^ 52 : ℚ) * (2 ^ ((rnd53 n d).2 - 1) * 2) := by ring
      _ = (2 ^ 52 : ℚ) * 2 ^ (rnd53 n d).2 := by rw [hE]
      _ ≤ ((rnd53 n d).1 : ℚ) * 2 ^ (rnd53 n d).2 := hs
      _ = fval (rnd53 n d) := hfv.symm
  constructor
  · linarith
  · linarith

theorem pyFloatPct_spec (free total : ℕ) (h0 : 0 < total) (hle : free ≤ total) :
    0 ≤ pyFloatPct free total ∧ pyFloatPct free total ≤ 100 ∧
    |pyFloatPct free total - pyRound ((free : ℚ) / (total : ℚ) * 100)| ≤ 1 := by
  have h2 : (2 : ℚ) ≠ 0 := by norm_num
  have ht : total ≠ 0 := by omega
  by_cases hf : free = 0
  · subst hf
    rw [pyFloatPct_zero total ht]
    have hq : ((0 : ℕ) : ℚ) / (total : ℚ) * 100 = ((0 : ℤ) : ℚ) := by
      push_cast
      ring
    rw [hq, pyRound_intCast]
    norm_num
  · have hq0 : (0 : ℚ) < (free : ℚ) / total := by
      apply div_pos
      · exact_mod_cast Nat.pos_of_ne_zero hf
      · exact_mod_cast h0
    have hq1 : (free : ℚ) / total ≤ 1 := by
      rw [div_le_one (by exact_mod_cast h0 : (0 : ℚ) < (total : ℚ))]
      exact_mod_cast hle
    obtain ⟨hc1a, hc1b⟩ := rnd53_close free total hf ht
    have hm1pos : (rnd53 free total).1 ≠ 0 := by
      have hs := (rnd53_spec free total hf ht).1
      positivity
    have hN : (100 * (rnd53 free total).1 : ℕ) ≠ 0 := by positivity
    obtain ⟨hc2a, hc2b⟩ := rnd53_close (100 * (rnd53 free total).1) 1 hN one_ne_zero
    have hNq : ((100 * (rnd53 free total).1 : ℕ) : ℚ) / ((1 : ℕ) : ℚ)
        = 100 * ((rnd53 free total).1 : ℚ) := by
      push_cast
      ring
    rw [hNq] at hc2a hc2b
    have hPF : pyFloatPct free total
        = pyRound (((rnd53 (100 * (rnd53 free total).1) 1).1 : ℚ)
            * 2 ^ ((rnd53 free total).2 + (rnd53 (100 * (rnd53 free total).1) 1).2)) := by
      simp only [pyFloatPct]
      rw [roundFval_eq]
    set P1 := rnd53 free total with hP1def
    set P2 := rnd53 (100 * P1.1) 1 with hP2def
    have hE1pos : (0 : ℚ) < 2 ^ P1.2 := by positivity
    have hsplit : (2 : ℚ) ^ (P1.2 + P2.2) = 2 ^ P2.2 * 2 ^ P1.2 := by
      rw [zpow_add₀ h2, mul_comm]
    have hD1 : fval P1 = (P1.1 : ℚ) * 2 ^ P1.2 := rfl
    have hD2 : fval P2 = (P2.1 : ℚ) * 2 ^ P2.2 := rfl
    have hV2nn : (0 : ℚ) ≤ (P2.1 : ℚ) * 2 ^ (P1.2 + P2.2) := by positivity
    have hP3 : (2 ^ 52 - 1 : ℚ) * (100 * fval P1)
        ≤ 2 ^ 52 * ((P2.1 : ℚ) * 2 ^ (P1.2 + P2.2)) := by
      have hs := mul_le_mul_of_nonneg_right hc2a hE1pos.le
      calc (2 ^ 52 - 1 : ℚ) * (100 * fval P1)
          = ((2 ^ 52 - 1) * (100 * (P1.1 : ℚ))) * 2 ^ P1.2 := by
            rw [hD1]
            ring
        _ ≤ (2 ^ 52 * fval P2) * 2 ^ P1.2 := hs
        _ = 2 ^ 52 * ((P2.1 : ℚ) * 2 ^ (P1.2 + P2.2)) := by
            rw [hD2, hsplit]
            ring
    have hP4 : 2 ^ 52 * ((P2.1 : ℚ) * 2 ^ (P1.2 + P2.2))
        ≤ (2 ^ 52 + 1 : ℚ) * (100 * fval P1) := by
      have hs := mul_le_mul_of_nonneg_right hc2b hE1pos.le
      calc 2 ^ 52 * ((P2.1 : ℚ) * 2 ^ (P1.2 + P2.2))
          = (2 ^ 52 * fval P2) * 2 ^ P1.2 := by
            rw [hD2, hsplit]
            ring
        _ ≤ ((2 ^ 52 + 1) * (100 * (P1.1 : ℚ))) * 2 ^ P1.2 := hs
        _ = (2 ^ 52 + 1 : ℚ) * (100 * fval P1) := by
            rw [hD1]
            ring
    have hup : (P2.1 : ℚ) * 2 ^ (P1.2 + P2.2) - (free : ℚ) / total * 100 < 1 / 2 := by
      linarith
    have hlo : (free : ℚ) / total * 100 - (P2.1 : ℚ) * 2 ^ (P1.2 + P2.2) < 1 / 2 := by
      linarith
    have hr_hi := pyRound_le_half ((P2.1 : ℚ) * 2 ^ (P1.2 + P2.2))
    have hr_lo := pyRound_ge_half ((P2.1 : ℚ) * 2 ^ (P1.2 + P2.2))
    have hs_hi := pyRound_le_half ((free : ℚ) / total * 100)
    have hs_lo := pyRound_ge_half ((free : ℚ) / total * 100)
    refine ⟨?_, ?_, ?_⟩
    · rw [hPF]
      exact pyRound_nonneg hV2nn
    · rw [hPF]
      have hlt : ((pyRound ((P2.1 : ℚ) * 2 ^ (P1.2 + P2.2)) : ℤ) : ℚ)
          < ((101 : ℤ) : ℚ) := by
        push_cast
        linarith
      have hlt2 : pyRound ((P2.1 : ℚ) * 2 ^ (P1.2 + P2.2)) < 101 := by
        exact_mod_cast hlt
      omega
    · rw [hPF, abs_le]
      have hd_hi : ((pyRound ((P2.1 : ℚ) * 2 ^ (P1.2 + P2.2))
          - pyRound ((free : ℚ) / total * 100) : ℤ) : ℚ) < 2 := by
        push_cast
        linarith
      have hd_lo : (-2 : ℚ) < ((pyRound ((P2.1 : ℚ) * 2 ^ (P1.2 + P2.2))
          - pyRound ((free : ℚ) / total * 100) : ℤ) : ℚ) := by
        push_cast
        linarith
      have hh1 : pyRound ((P2.1 : ℚ) * 2 ^ (P1.2 + P2.2))
          - pyRound ((free : ℚ) / total * 100) < 2 := by
        exact_mod_cast hd_hi
      have hh2 : -2 < pyRound ((P2.1 : ℚ) * 2 ^ (P1.2 + P2.2))
          - pyRound ((free : ℚ) / total * 100) := by
        exact_mod_cast hd_lo
      omega

end Wallpaper

namespace Wallpaper

/-- C10: when the filesystem statistics of an existing directory report
`total = 0`, `free_space` raises an uncaught `ZeroDivisionError` instead of
returning the `False` sentinel, and the sentinel is returned exactly when
the underlying OS query raised an `OSError`. -/
theorem free_space_zero_total_divzero (free : ℕ) (stat : Except String (Nat × Nat)) :
    free_space (.ok (free, 0)) = .error .zeroDivisionError ∧
    (free_space stat = .ok .noReading ↔ ∃ e, stat = .error e) := by
  refine ⟨rfl, ?_⟩
  cases stat with
  | error e => simp [free_space]
  | ok p =>
      obtain ⟨f, t⟩ := p
      by_cases ht : t = 0
      · subst ht
        simp [free_space]
      · simp [free_space, ht]

/-- C6: when the free-space query raises an `OSError` (missing directory or
failed OS call), `free_space` returns the `False` sentinel instead of
raising, and the driver exits with code 1 after only the disk check. -/
theorem missing_dir_sentinel_exit1 (env : Env) (setter : Setter) (pd : String)
    (e : String) (h : env.stat = .error e) :
    free_space env.stat = .ok .noReading ∧
    set_random_wallpaper env setter pd = ⟨.systemExit 1, [.diskCheck]⟩ := by
  constructor
  · rw [h]
    rfl
  · unfold set_random_wallpaper
    rw [h]
    rfl

/-- C6 witness: a concrete run with a missing picture directory. -/
theorem missing_dir_sentinel_exit1_witness :
    envNoDir.stat = .error "ENOENT" ∧
    (free_space envNoDir.stat = .ok .noReading ∧
      set_random_wallpaper envNoDir .linux "/pics" = ⟨.systemExit 1, [.diskCheck]⟩) :=
  ⟨by decide, missing_dir_sentinel_exit1 envNoDir .linux "/pics" "ENOENT" (by decide)⟩

end Wallpaper

namespace Wallpaper

/-- C1 (code bug): when no wallpaper URL can be found — the metadata fetch
returned its `False` sentinel after a transport failure, or the page body
lacks the `twitter:image:src` tag so `soup.find` returns `None` — the
driver does NOT exit with code 3: unpacking `False` at
`url, title = get_wallpaper_details(base_url)` raises `TypeError`, and
`None['content']` inside `get_wallpaper_details` raises `TypeError`, so the
`raise SystemExit(3)` at line 184 is never reached in either scenario. -/
theorem driver_unreachable_exit3 :
    (set_random_wallpaper envTransportFail .linux "/pics").term
        = .uncaught (.typeError "cannot unpack non-iterable bool") ∧
    (set_random_wallpaper envBase .linux "/pics").term
        = .uncaught (.typeError "NoneType object is not subscriptable") ∧
    (set_random_wallpaper envTransportFail .linux "/pics").term ≠ .systemExit 3 ∧
    (set_random_wallpaper envBase .linux "/pics").term ≠ .systemExit 3 := by
  decide

/-- C2 counterexample: the directory exists and its free-space percentage
is 0, which is ≤ the minimum of 25, yet the driver exits with code 1, not 2
— `if not fs:` conflates the integer 0 with the `False` sentinel. -/
theorem zero_free_space_exits_one :
    free_space envZeroFree.stat = .ok (.pct 0) ∧
    set_random_wallpaper envZeroFree .linux "/pics"
        = ⟨.systemExit 1, [.diskCheck]⟩ ∧
    (set_random_wallpaper envZeroFree .linux "/pics").term ≠ .systemExit 2 := by
  decide

/-- C2 (amended): for every existing picture directory whose computed
free-space percentage is positive and at most the configured minimum
(default 25), the driver exits with code 2 after the disk check alone —
no network step (page fetch or image fetch) occurs.  A reading of exactly
0% instead takes the `not fs` branch and exits with code 1. -/
theorem low_space_exits_two (env : Env) (setter : Setter) (pd : String) (n : ℤ)
    (h : free_space env.stat = .ok (.pct n)) (h0 : 0 < n)
    (h25 : n ≤ free_space_minimum) :
    set_random_wallpaper env setter pd = ⟨.systemExit 2, [.diskCheck]⟩ := by
  have hne : ¬(n = 0) := by omega
  unfold set_random_wallpaper
  rw [h]
  simp [FSVal.toInt, hne, h25]

/-- C2 witness: a concrete run at 10% free space exits with code 2 having
performed only the disk check. -/
theorem low_space_exits_two_witness :
    free_space envLowSpace.stat = .ok (.pct 10) ∧ (0 : ℤ) < 10 ∧
    (10 : ℤ) ≤ free_space_minimum ∧
    set_random_wallpaper envLowSpace .linux "/pics"
        = ⟨.systemExit 2, [.diskCheck]⟩ :=
  ⟨by decide, by decide, by decide,
   low_space_exits_two envLowSpace .linux "/pics" 10 (by decide) (by decide)
     (by decide)⟩

/-- C3: when the image fetch fails in transport (`HTTPError` or `URLError`),
`download_wallpaper` does not raise: it prints one message built from the
URL and the failure reason and returns the computed output path — the same
path it returns when the fetch and the write both succeed. -/
theorem download_transport_error_returns_path (env envOk : Env)
    (url pd fname : String) (e : FetchErr) (h : env.image = .error e)
    (h1 : envOk.image = .ok ()) (h2 : envOk.write = .ok ()) :
    (download_wallpaper env url pd fname).ret = .ok (outPath pd fname url) ∧
    (download_wallpaper env url pd fname).msgs = [fetchErrMsg e url] ∧
    (download_wallpaper envOk url pd fname).ret = .ok (outPath pd fname url) := by
  refine ⟨?_, ?_, ?_⟩ <;> simp [download_wallpaper, h, h1, h2]

/-- C3 witness: a 404 on the image URL still yields the joined output path,
with the HTTP error reported. -/
theorem download_transport_error_returns_path_witness :
    envHttpErr.image = .error (.httpError 404) ∧ envBase.image = .ok () ∧
    envBase.write = .ok () ∧
    ((download_wallpaper envHttpErr "http://x/img.jpg" "/pics" "My Photo").ret
          = .ok (outPath "/pics" "My Photo" "http://x/img.jpg") ∧
      (download_wallpaper envHttpErr "http://x/img.jpg" "/pics" "My Photo").msgs
          = [fetchErrMsg (.httpError 404) "http://x/img.jpg"] ∧
      (download_wallpaper envBase "http://x/img.jpg" "/pics" "My Photo").ret
          = .ok (outPath "/pics" "My Photo" "http://x/img.jpg")) :=
  ⟨by decide, by decide, by decide,
   download_transport_error_returns_path envHttpErr envBase "http://x/img.jpg"
     "/pics" "My Photo" (.httpError 404) (by decide) (by decide) (by decide)⟩

/-- C4 (code bug): despite the docstring "cleans filename", no character of
the title is sanitized: a path separator or a control character in the
title lands verbatim in the output path. -/
theorem download_no_filename_sanitization :
    (download_wallpaper envBase "http://x/img.jpg" "/pics" "My/Photo").ret
        = .ok "/pics/My/Photo.jpg" ∧
    (download_wallpaper envBase "http://x/img.jpg" "/pics" "My\tPhoto").ret
        = .ok "/pics/My\tPhoto.jpg" := by
  decide

/-- C5 counterexample: on an unsupported platform the program does not fail
at the wallpaper-setting step with an "unsupported platform" error — the
module-level name lookup raises a bare `KeyError` at import time, before
any step of the run (the event trace is empty, and in particular no
wallpaper-setting step was reached). -/
theorem unsupported_platform_import_failure :
    run_module "plan9" envBase "/home/user"
        = ⟨.uncaught (.keyError "_set_wallpaper_plan9"), []⟩ ∧
    Event.setWall ∉ (run_module "plan9" envBase "/home/user").events ∧
    Event.diskCheck ∉ (run_module "plan9" envBase "/home/user").events := by
  decide

/-- C5 (amended): on every platform with no wallpaper-setter variant, the
module fails fast at import time with an uncaught `KeyError` from the
`globals()` lookup, before any step of the run; it never silently does
nothing. -/
theorem unsupported_platform_keyerror (p : String) (env : Env) (home : String)
    (h1 : p ≠ "linux") (h2 : p ≠ "win32") (h3 : p ≠ "darwin") :
    run_module p env home
        = ⟨.uncaught (.keyError ("_set_wallpaper_" ++ p)), []⟩ := by
  unfold run_module set_wallpaper_lookup
  rw [if_neg h1, if_neg h2, if_neg h3]

/-- C5 witness: the amended statement at the concrete platform `plan9`. -/
theorem unsupported_platform_keyerror_witness :
    "plan9" ≠ "linux" ∧ "plan9" ≠ "win32" ∧ "plan9" ≠ "darwin" ∧
    run_module "plan9" envMarked "/home/user"
        = ⟨.uncaught (.keyError ("_set_wallpaper_" ++ "plan9")), []⟩ :=
  ⟨by decide, by decide, by decide,
   unsupported_platform_keyerror "plan9" envMarked "/home/user" (by decide)
     (by decide) (by decide)⟩

/-- C8: the content handed to the HTML parser inside
`get_wallpaper_details` is exactly the concatenation, in original order, of
the response lines that do not contain `document.write`; every line
containing the marker is discarded before parsing. -/
theorem gwd_content_filtered (env : Env) (lines : List String)
    (h : env.page = .ok lines) :
    sanitizeLines lines = concatAll (lines.filter (fun l => !containsMarker l)) ∧
    get_wallpaper_details env
        = parseDetails env.soupFind
            (concatAll (lines.filter (fun l => !containsMarker l))) := by
  have key : ∀ ls : List String,
      sanitizeLines ls = concatAll (ls.filter (fun l => !containsMarker l)) := by
    intro ls
    induction ls with
    | nil => rfl
    | cons l ls ih =>
        by_cases hm : containsMarker l = true
        · simp [sanitizeLines, hm, ih, concatAll]
        · simp only [Bool.not_eq_true] at hm
          simp [sanitizeLines, hm, ih, concatAll]
  refine ⟨key lines, ?_⟩
  unfold get_wallpaper_details
  rw [h]
  show parseDetails env.soupFind (sanitizeLines lines)
      = parseDetails env.soupFind
          (concatAll (lines.filter (fun l => !containsMarker l)))
  rw [key lines]

/-- C8 witness: a page body with a `document.write` line between two meta
lines; the filtered content is the two meta lines joined. -/
theorem gwd_content_filtered_witness :
    envMarked.page
        = .ok ["<meta a>", "x document.write('<script>') y", "<meta b>"] ∧
    (sanitizeLines ["<meta a>", "x document.write('<script>') y", "<meta b>"]
        = concatAll
            ((["<meta a>", "x document.write('<script>') y", "<meta b>"]).filter
              (fun l => !containsMarker l)) ∧
      get_wallpaper_details envMarked
        = parseDetails envMarked.soupFind
            (concatAll
              ((["<meta a>", "x document.write('<script>') y", "<meta b>"]).filter
                (fun l => !containsMarker l)))) :=
  ⟨by decide,
   gwd_content_filtered envMarked
     ["<meta a>", "x document.write('<script>') y", "<meta b>"] (by decide)⟩

/-- C9: the no-raise guarantee of `download_wallpaper` covers only
transport errors: when the fetch succeeds but opening or writing the output
file raises an `OSError`, the error propagates and no path is returned. -/
theorem download_write_error_propagates (env : Env) (url pd fname m : String)
    (h1 : env.image = .ok ()) (h2 : env.write = .error m) :
    (download_wallpaper env url pd fname).ret = .error (.osError m) := by
  simp [download_wallpaper, h1, h2]

/-- C9 witness: a concrete run where the target directory is missing, so
the `open` fails and the `OSError` propagates. -/
theorem download_write_error_propagates_witness :
    envWriteFail.image = .ok () ∧
    envWriteFail.write = .error "No such file or directory" ∧
    (download_wallpaper envWriteFail "http://x/img.jpg" "/gone" "T").ret
        = .error (.osError "No such file or directory") :=
  ⟨by decide, by decide,
   download_write_error_propagates envWriteFail "http://x/img.jpg" "/gone" "T"
     "No such file or directory" (by decide) (by decide)⟩

end Wallpaper

namespace Wallpaper

/-- C7 counterexample: at `free = 494999999999999999`, `total = 10^18`,
the exact value of `free/total*100` is `49.5 - 10^-16`, whose half-even
rounding is 49; but the binary64 double nearest `free/total` is `0.495`
exactly, the double product with 100 is exactly `49.5`, and `round(49.5)`
is 50.  So `free_space` does not return the exact-rational
`round(F/T*100)`. -/
theorem free_space_float_deviates :
    free_space (.ok (494999999999999999, 1000000000000000000))
        = .ok (.pct 50) ∧
    pyRound ((494999999999999999 : ℚ) / 1000000000000000000 * 100) = 49 ∧
    (50 : ℤ) ≠ 49 := by
  refine ⟨by decide, ?_, by decide⟩
  have hb : (1000000000000000000 : ℕ) ≠ 0 := by norm_num
  have h := pyRoundDiv_eq_pyRound 49499999999999999900 1000000000000000000 hb
  have harg : ((49499999999999999900 : ℤ) : ℚ) / ((1000000000000000000 : ℕ) : ℚ)
      = (494999999999999999 : ℚ) / 1000000000000000000 * 100 := by
    push_cast
    rw [div_mul_eq_mul_div]
    norm_num
  rw [harg] at h
  rw [← h]
  decide

/-- C7 (amended): for a directory whose filesystem reports total bytes
`T > 0` and free bytes `F ≤ T`, `free_space` returns the double-precision
evaluation of `round(F / T * 100)` (`pyFloatPct`): an integer in
`[0, 100]` that differs from the exact-rational `round(F/T*100)` by at
most one — and can differ, see `free_space_float_deviates`. -/
theorem free_space_float_pct (free total : ℕ) (h0 : 0 < total)
    (hle : free ≤ total) :
    free_space (.ok (free, total)) = .ok (.pct (pyFloatPct free total)) ∧
    0 ≤ pyFloatPct free total ∧ pyFloatPct free total ≤ 100 ∧
    |pyFloatPct free total - pyRound ((free : ℚ) / (total : ℚ) * 100)| ≤ 1 := by
  have ht : total ≠ 0 := by omega
  obtain ⟨g1, g2, g3⟩ := pyFloatPct_spec free total h0 hle
  exact ⟨by simp [free_space, ht], g1, g2, g3⟩

/-- C7 witness: the amended statement applied at `F = 1`, `T = 3`. -/
theorem free_space_float_pct_witness :
    0 < 3 ∧ 1 ≤ 3 ∧
    (free_space (.ok (1, 3)) = .ok (.pct (pyFloatPct 1 3)) ∧
      0 ≤ pyFloatPct 1 3 ∧ pyFloatPct 1 3 ≤ 100 ∧
      |pyFloatPct 1 3 - pyRound (((1 : ℕ) : ℚ) / ((3 : ℕ) : ℚ) * 100)| ≤ 1) :=
  ⟨by decide, by decide, free_space_float_pct 1 3 (by decide) (by decide)⟩

end Wallpaper
